import Mathlib

/-!
Verification of the content-factory coordinator code (HelmarCEO, ContentManager,
autonomy-rules configuration) against its natural-language specification.

The TypeScript sources are shallowly embedded:
  * configuration tables from src/config/autonomy-rules.ts become concrete
    Lean structures and values;
  * JS numbers used as money, rates and metric values become rationals;
  * counters become naturals;
  * the mutable agent objects (ContentManager, HelmarCEO) become explicit
    state records with pure step functions, and a run of the system is a
    fold of step functions over a list of events.
-/

namespace ContentFactory

/-! ## Configuration (src/config/autonomy-rules.ts) -/

/-- HelmarAutonomy interface from agent-types.ts: three keyword rule lists. -/
structure HelmarAutonomy where
  canDecideAutonomously : List String
  requiresApproval : List String
  mustReport : List String

/-- HELMAR_AUTONOMY_RULES constant from autonomy-rules.ts, verbatim. -/
def HELMAR_AUTONOMY_RULES : HelmarAutonomy :=
  { canDecideAutonomously :=
      [ "Daily content themes and topics"
      , "Budget allocation under $1000"
      , "Team task assignment and prioritization"
      , "Performance optimization strategies"
      , "Content scheduling and publishing"
      , "A/B testing experiments"
      , "Resource allocation across departments"
      , "Minor workflow adjustments"
      , "Social media engagement responses"
      , "Content format selection"
      , "Posting frequency optimization"
      , "Audience targeting refinements" ]
  , requiresApproval :=
      [ "Major strategy pivots or business model changes"
      , "Budget expenditure over $1000"
      , "New market or platform entry"
      , "Staff restructuring or role changes"
      , "Partnership agreements and collaborations"
      , "Brand guidelines major modifications"
      , "Legal compliance deviations"
      , "Product pricing changes"
      , "Market expansion strategies"
      , "Technology stack modifications" ]
  , mustReport :=
      [ "Daily performance metrics and KPIs"
      , "Revenue and expense summaries"
      , "Department status updates"
      , "System errors and resolutions"
      , "Content performance analytics"
      , "Budget utilization reports"
      , "Security incidents or breaches"
      , "Customer feedback and complaints"
      , "Competitive analysis insights"
      , "Strategic recommendations" ] }

/-- DECISION_THRESHOLDS from autonomy-rules.ts (money and rates as rationals). -/
structure DecisionThresholds where
  BUDGET_LIMIT : ℚ
  REVENUE_DROP_ALERT : ℚ
  SYSTEM_UPTIME_MINIMUM : ℚ
  TASK_SUCCESS_RATE_MINIMUM : ℚ
  RESPONSE_TIME_MAXIMUM : ℚ
  CONTENT_QUALITY_MINIMUM : ℚ
  ENGAGEMENT_RATE_MINIMUM : ℚ

def DECISION_THRESHOLDS : DecisionThresholds :=
  { BUDGET_LIMIT := 1000
  , REVENUE_DROP_ALERT := 0.2
  , SYSTEM_UPTIME_MINIMUM := 0.999
  , TASK_SUCCESS_RATE_MINIMUM := 0.95
  , RESPONSE_TIME_MAXIMUM := 300000
  , CONTENT_QUALITY_MINIMUM := 8
  , ENGAGEMENT_RATE_MINIMUM := 0.03 }

/-! ## Case-insensitive substring matching

JS string matching used by the agent is
  haystack.toLowerCase().includes(needle.toLowerCase())
We embed it on lists of characters with an explicit scanning function.
-/

/-- JS String.startsWith on character lists: the second list heads the first. -/
def startsWithChars : List Char → List Char → Bool
  | _, [] => true
  | [], _ :: _ => false
  | a :: as, b :: bs => a == b && startsWithChars as bs

/-- JS String.includes on character lists: the needle occurs contiguously. -/
def hasSubstring : List Char → List Char → Bool
  | [], needle => needle.isEmpty
  | h :: t, needle => startsWithChars (h :: t) needle || hasSubstring t needle

/-- Case-insensitive includes, as written in helmar.ts:
action.toLowerCase().includes(rule.toLowerCase()). -/
def includesCI (haystack needle : String) : Bool :=
  hasSubstring (haystack.toList.map Char.toLower) (needle.toList.map Char.toLower)

/-- helmar.ts canDecideAutonomously (lines 207-211): the action is autonomous
iff it matches some entry of the canDecideAutonomously rule list by
case-insensitive substring search.  No other input is consulted. -/
def canDecideAutonomously (action : String) : Bool :=
  HELMAR_AUTONOMY_RULES.canDecideAutonomously.any (fun rule => includesCI action rule)

/-! Characterisation lemmas for the matcher. -/

theorem startsWithChars_iff (hs needle : List Char) :
    startsWithChars hs needle = true ↔ ∃ r, hs = needle ++ r := by
  induction needle generalizing hs with
  | nil => simp [startsWithChars]
  | cons b bs ih =>
    cases hs with
    | nil => simp [startsWithChars]
    | cons a as =>
      simp only [startsWithChars, Bool.and_eq_true, beq_iff_eq, ih, List.cons_append,
        List.cons.injEq]
      constructor
      · rintro ⟨rfl, r, rfl⟩
        exact ⟨r, rfl, rfl⟩
      · rintro ⟨r, rfl, rfl⟩
        exact ⟨rfl, r, rfl⟩

theorem hasSubstring_iff (hs needle : List Char) :
    hasSubstring hs needle = true ↔ ∃ l r, hs = l ++ needle ++ r := by
  induction hs with
  | nil =>
    simp only [hasSubstring, List.isEmpty_iff]
    constructor
    · rintro rfl
      exact ⟨[], [], rfl⟩
    · rintro ⟨l, r, h⟩
      rcases List.append_eq_nil.mp (List.append_eq_nil.mp h.symm).1 with ⟨_, h2⟩
      exact h2
  | cons h t ih =>
    simp only [hasSubstring, Bool.or_eq_true, startsWithChars_iff, ih]
    constructor
    · rintro (⟨r, hr⟩ | ⟨l, r, hr⟩)
      · exact ⟨[], r, by simp [hr]⟩
      · exact ⟨h :: l, r, by simp [hr]⟩
    · rintro ⟨l, r, hr⟩
      cases l with
      | nil => exact Or.inl ⟨r, by simpa using hr⟩
      | cons x xs =>
        simp only [List.cons_append, List.cons.injEq] at hr
        exact Or.inr ⟨xs, r, by simp [hr.2]⟩

/-! ## HelmarCEO: budget figures (helmar.ts) -/

/-- BudgetAllocation interface from agent-types.ts. -/
structure BudgetAllocation where
  total : ℚ
  content : ℚ
  production : ℚ
  distribution : ℚ
  marketing : ℚ
  operations : ℚ

/-- helmar.ts calculateBudgetAllocation (lines 235-246):
totalBudget = Math.min(DECISION_THRESHOLDS.BUDGET_LIMIT, 800) and fixed
percentage shares of it.  The JS double products are exact at these values,
so the rational embedding agrees with the runtime values. -/
def calculateBudgetAllocation : BudgetAllocation :=
  let totalBudget := min DECISION_THRESHOLDS.BUDGET_LIMIT 800
  { total := totalBudget
  , content := totalBudget * 0.3
  , production := totalBudget * 0.25
  , distribution := totalBudget * 0.25
  , marketing := totalBudget * 0.15
  , operations := totalBudget * 0.05 }

/-- The budget committed in helmar.ts makeStrategicDecisions (line 137):
Math.min(DECISION_THRESHOLDS.BUDGET_LIMIT, 800). -/
def strategyBudget : ℚ := min DECISION_THRESHOLDS.BUDGET_LIMIT 800

/-! ## HelmarCEO: performance analysis (helmar.ts lines 355-365)

analyzePerformance reads the wall clock twice
(elapsed1 = Date.now() - startTime for the numerator,
 elapsed2 = Date.now() - startTime for the denominator); both are
nonnegative millisecond counts, embedded as two Nat parameters.
Every other field of the result is a hardcoded literal.
-/

/-- PerformanceMetrics interface from agent-types.ts. -/
structure PerformanceMetrics where
  tasksCompleted : Nat
  tasksTotal : Nat
  successRate : ℚ
  systemUptime : ℚ
  responseTime : ℚ
  deriving DecidableEq

/-- helmar.ts analyzePerformance:
uptime = elapsed1 / (elapsed2 + 1000), result has fixed counters and
systemUptime = Math.min(uptime, 1). -/
def analyzePerformance (elapsed1 elapsed2 : Nat) : PerformanceMetrics :=
  let uptime : ℚ := (elapsed1 : ℚ) / ((elapsed2 : ℚ) + 1000)
  { tasksCompleted := 45
  , tasksTotal := 50
  , successRate := 0.9
  , systemUptime := min uptime 1
  , responseTime := 150 }

/-! ## ContentManager (src/agents/managers/content.ts)

The mutable ContentManager object becomes a state record.  The wall-clock
field lastUpdate and the logger are not modelled (pure time/IO effects).
receiveTask pushes the task and starts processTask asynchronously; the
later completion or failure of that processing is delivered as a separate
finish event carrying the index of the task in currentTasks, matching the
single asynchronous processTask launched per received task.
-/

/-- DepartmentTask interface from agent-types.ts.  The string-literal
unions for department, priority and status are embedded as strings (their
runtime representation); deadline is a millisecond timestamp. -/
structure DepartmentTask where
  department : String
  taskId : String
  description : String
  priority : String
  deadline : Int
  assignedTo : String
  status : String
  deriving DecidableEq

/-- The ContentManager mutable fields used by the claims. -/
structure CMState where
  status : String
  currentTasks : List DepartmentTask
  performance : PerformanceMetrics
  deriving DecidableEq

/-- Field initialisers of ContentManager (content.ts lines 27-35). -/
def initCM : CMState :=
  { status := "online"
  , currentTasks := []
  , performance :=
      { tasksCompleted := 0, tasksTotal := 0, successRate := 0
      , systemUptime := 1, responseTime := 0 } }

/-- content.ts updatePerformanceMetrics (lines 251-263):
successRate := tasksCompleted / tasksTotal, and status resets to online
when no current task is pending or in-progress. -/
def updatePerformanceMetrics (s : CMState) : CMState :=
  let rate : ℚ := (s.performance.tasksCompleted : ℚ) / (s.performance.tasksTotal : ℚ)
  let pendingTasks := s.currentTasks.filter
    (fun t => t.status == "pending" || t.status == "in-progress")
  { s with
    performance := { s.performance with successRate := rate }
  , status := if pendingTasks.isEmpty then "online" else s.status }

/-- content.ts receiveTask (lines 107-123): unconditionally push the task,
increment tasksTotal, and switch to busy when more than 5 tasks are held.
The asynchronous processTask launch is modelled by a later finish event. -/
def receiveTask (s : CMState) (t : DepartmentTask) : CMState :=
  let tasks := s.currentTasks ++ [t]
  { s with
    currentTasks := tasks
  , performance := { s.performance with tasksTotal := s.performance.tasksTotal + 1 }
  , status := if tasks.length > 5 then "busy" else s.status }

/-- content.ts processTask outcome (lines 129-160): on success the task
status becomes completed, tasksCompleted increments and the metrics are
updated; on a thrown error (catch branch) the task status becomes blocked
and nothing else changes.  The index selects the processed task; an index
outside currentTasks corresponds to no held task and leaves the state
unchanged. -/
def finishTask (s : CMState) (i : Nat) (ok : Bool) : CMState :=
  match s.currentTasks.get? i with
  | none => s
  | some t =>
    if ok then
      let s1 :=
        { s with
          currentTasks := s.currentTasks.set i { t with status := "completed" }
        , performance :=
            { s.performance with tasksCompleted := s.performance.tasksCompleted + 1 } }
      updatePerformanceMetrics s1
    else
      { s with currentTasks := s.currentTasks.set i { t with status := "blocked" } }

/-- Events observable on one ContentManager. -/
inductive CMEvent
  | receive (t : DepartmentTask)
  | finish (i : Nat) (ok : Bool)

/-- One event step of the ContentManager. -/
def stepCM (s : CMState) : CMEvent → CMState
  | .receive t => receiveTask s t
  | .finish i ok => finishTask s i ok

/-- A run of the ContentManager over an event trace. -/
def runCM (s : CMState) (es : List CMEvent) : CMState :=
  es.foldl stepCM s

/-! ## HelmarCEO: department management cycle (helmar.ts lines 158-172, 470-473) -/

/-- Issue interface from agent-types.ts (dates omitted; wall clock). -/
structure Issue where
  id : String
  severity : String
  description : String
  department : String
  status : String
  deriving DecidableEq

/-- The HelmarCEO mutable fields relevant to department management:
the accumulated issues list and the error log written by logger.error. -/
structure HelmarState where
  issues : List Issue
  errorLog : List String
  deriving DecidableEq

/-- Department keys registered by initializeDepartments (helmar.ts line 71). -/
def departments : List String := ["content", "production", "distribution", "revenue"]

/-- helmar.ts handleDepartmentError (lines 470-473): it only writes a
logger.error line; it does not touch the issues list or any other state. -/
def handleDepartmentError (s : HelmarState) (deptName : String) : HelmarState :=
  { s with errorLog := s.errorLog ++ ["Department " ++ deptName ++ " error"] }

/-- One iteration of the manageDepartments loop body: the four awaited
methods (checkDepartmentHealth, assignTasks, monitorProgress,
optimizePerformance) are empty stubs in the source, so the try block has
no state effect; whether the awaited processing of a department throws is
injected through the fault predicate the claim quantifies over, and a
thrown error reaches only the catch branch, handleDepartmentError. -/
def manageDept (fault : String → Bool) (s : HelmarState) (deptName : String) : HelmarState :=
  if fault deptName then handleDepartmentError s deptName else s

/-- helmar.ts manageDepartments (lines 158-172): the for loop over the
departments map with the per-department try/catch. -/
def manageDepartments (fault : String → Bool) (s : HelmarState) : HelmarState :=
  departments.foldl (manageDept fault) s

/-! ## Autonomy Gate and BudgetLedger

Modelled from the spec: the repository has no BudgetLedger and no
evaluate(action, cost) gate (src only has the keyword stub
canDecideAutonomously above); section 4.3 of the spec defines the missing
Autonomy Gate, embedded here word for word: rule (a) requiresApproval
match wins regardless of cost, rule (b) rejects when
cost + spentToday > dailyLimit with rationale budget exceeded, rule (c)
flags mustReport matches, rule (d) is plain auto; only auto outcomes debit.
-/

/-- AutonomyDecision classification values from the spec data model. -/
inductive Classification
  | auto
  | approvalRequired
  | mustReport
  deriving DecidableEq

/-- Modelled from the spec: BudgetLedger {dailyLimit, spentToday}
(perDepartmentCaps is not used by any claim). -/
structure BudgetLedger where
  dailyLimit : ℚ
  spentToday : ℚ
  deriving DecidableEq

/-- Modelled from the spec: AutonomyDecision {action, classification,
rationale}.  The mustReport flag of rule (c) is the mustReport
classification value. -/
structure AutonomyDecision where
  action : String
  classification : Classification
  rationale : String
  deriving DecidableEq

/-- Modelled from the spec: the Autonomy Gate evaluate(action, cost) of
section 4.3, returning the decision and the updated ledger; auto outcomes
debit the cost, approval-required outcomes never debit. -/
def evaluate (rules : HelmarAutonomy) (ledger : BudgetLedger) (action : String) (cost : ℚ) :
    AutonomyDecision × BudgetLedger :=
  if rules.requiresApproval.any (fun r => includesCI action r) then
    (⟨action, .approvalRequired, "matches requiresApproval"⟩, ledger)
  else if cost + ledger.spentToday > ledger.dailyLimit then
    (⟨action, .approvalRequired, "budget exceeded"⟩, ledger)
  else if rules.mustReport.any (fun r => includesCI action r) then
    (⟨action, .mustReport, "auto, flagged for the next report"⟩,
      { ledger with spentToday := ledger.spentToday + cost })
  else
    (⟨action, .auto, "auto"⟩, { ledger with spentToday := ledger.spentToday + cost })

/-- Modelled from the spec: a sequence of proposed actions evaluated
against the gate, threading the ledger. -/
def runGate (rules : HelmarAutonomy) (ledger : BudgetLedger)
    (actions : List (String × ℚ)) : BudgetLedger :=
  actions.foldl (fun led ac => (evaluate rules led ac.1 ac.2).2) ledger

/-! ## Helper lemmas -/

theorem runCM_append (s : CMState) (es fs : List CMEvent) :
    runCM s (es ++ fs) = runCM (runCM s es) fs :=
  List.foldl_append stepCM s es fs

/-- Whether an event is a task reception. -/
def isReceive : CMEvent → Bool
  | .receive _ => true
  | .finish _ _ => false

theorem stepCM_length (s : CMState) (e : CMEvent) :
    (stepCM s e).currentTasks.length
      = s.currentTasks.length + (if isReceive e then 1 else 0) := by
  cases e with
  | receive t => simp [stepCM, receiveTask, isReceive]
  | finish i ok =>
    simp only [stepCM, finishTask, isReceive, if_neg Bool.false_ne_true, Nat.add_zero]
    cases hg : s.currentTasks.get? i with
    | none => rfl
    | some t =>
      cases ok with
      | true => simp [updatePerformanceMetrics]
      | false => simp

theorem runCM_length (es : List CMEvent) (s : CMState) :
    (runCM s es).currentTasks.length
      = s.currentTasks.length + (es.filter isReceive).length := by
  induction es generalizing s with
  | nil => simp [runCM]
  | cons e t ih =>
    have hstep := stepCM_length s e
    cases he : isReceive e <;>
      simp_all [runCM, List.foldl_cons, List.filter_cons, ih (stepCM s e)]
    omega

theorem runCM_map_receive (ts : List DepartmentTask) (s : CMState) :
    (runCM s (ts.map CMEvent.receive)).currentTasks = s.currentTasks ++ ts := by
  induction ts generalizing s with
  | nil => simp [runCM]
  | cons t rest ih =>
    simp [runCM, List.foldl_cons, stepCM, receiveTask] at ih ⊢
    rw [ih]
    simp

theorem updatePerformanceMetrics_status (s : CMState) :
    (updatePerformanceMetrics s).status = "online"
    ∨ (updatePerformanceMetrics s).status = s.status := by
  simp only [updatePerformanceMetrics]
  split
  · exact Or.inl rfl
  · exact Or.inr rfl

theorem stepCM_status (s : CMState) (e : CMEvent)
    (h : s.status = "online" ∨ s.status = "busy") :
    (stepCM s e).status = "online" ∨ (stepCM s e).status = "busy" := by
  cases e with
  | receive t =>
    simp only [stepCM, receiveTask]
    split
    · exact Or.inr rfl
    · exact h
  | finish i ok =>
    simp only [stepCM, finishTask]
    cases hg : s.currentTasks.get? i with
    | none => exact h
    | some t =>
      cases ok with
      | true =>
        rcases updatePerformanceMetrics_status
            { s with
              currentTasks := s.currentTasks.set i { t with status := "completed" }
            , performance :=
                { s.performance with
                  tasksCompleted := s.performance.tasksCompleted + 1 } } with h1 | h1
        · exact Or.inl h1
        · rcases h with h2 | h2
          · exact Or.inl (h1.trans h2)
          · exact Or.inr (h1.trans h2)
      | false => simpa using h

/-! ## Claim C2 -/

/-- Claim C2 counterexample: the concrete action below matches the
requiresApproval entry "Product pricing changes" by case-insensitive
substring search, yet canDecideAutonomously classifies it as autonomous
(it also matches the allow-list entry "A/B testing experiments"), so the
code does not return approval-required for every requiresApproval match. -/
def c2Action : String := "A/B testing experiments about product pricing changes"

/-- Claim C2 is false on the code: an action matching a requiresApproval
entry is nevertheless decided autonomously by canDecideAutonomously, which
consults only the canDecideAutonomously list. -/
theorem canDecideAutonomously_requiresApproval_counterexample :
    HELMAR_AUTONOMY_RULES.requiresApproval.any (fun r => includesCI c2Action r) = true
    ∧ canDecideAutonomously c2Action = true :=
  ⟨by decide, by decide⟩

/-- Claim C2 (amended): the autonomy decision depends only on the
canDecideAutonomously rule list; the action is decided autonomously
exactly when some entry of that list occurs case-insensitively as a
substring of the action, and neither the requiresApproval list nor any
cost is consulted (the function takes no cost input). -/
theorem canDecideAutonomously_iff (action : String) :
    canDecideAutonomously action = true
      ↔ ∃ rule ∈ HELMAR_AUTONOMY_RULES.canDecideAutonomously,
          ∃ l r, action.toList.map Char.toLower
            = l ++ rule.toList.map Char.toLower ++ r := by
  simp only [canDecideAutonomously, List.any_eq_true, includesCI, hasSubstring_iff]

/-! ## Claim C4 -/

/-- Claim C4: calculateBudgetAllocation is the fixed percentage split of
the total (content 30 percent, production 25, distribution 25,
marketing 15, operations 5), and the five department shares sum exactly
to the total. -/
theorem calculateBudgetAllocation_split :
    calculateBudgetAllocation.content = 0.3 * calculateBudgetAllocation.total
    ∧ calculateBudgetAllocation.production = 0.25 * calculateBudgetAllocation.total
    ∧ calculateBudgetAllocation.distribution = 0.25 * calculateBudgetAllocation.total
    ∧ calculateBudgetAllocation.marketing = 0.15 * calculateBudgetAllocation.total
    ∧ calculateBudgetAllocation.operations = 0.05 * calculateBudgetAllocation.total
    ∧ calculateBudgetAllocation.content + calculateBudgetAllocation.production
        + calculateBudgetAllocation.distribution + calculateBudgetAllocation.marketing
        + calculateBudgetAllocation.operations = calculateBudgetAllocation.total := by
  norm_num [calculateBudgetAllocation, DECISION_THRESHOLDS]

/-! ## Claim C9 -/

/-- Claim C9: under every sequence of receiveTask and processTask
operations the ContentManager status stays online or busy; no operation
ever produces offline. -/
theorem contentManager_status_never_offline (es : List CMEvent) :
    (runCM initCM es).status = "online" ∨ (runCM initCM es).status = "busy" := by
  have key : ∀ (fs : List CMEvent) (s : CMState),
      s.status = "online" ∨ s.status = "busy" →
      (runCM s fs).status = "online" ∨ (runCM s fs).status = "busy" := by
    intro fs
    induction fs with
    | nil => intro s h; exact h
    | cons e t ih =>
      intro s h
      exact ih (stepCM s e) (stepCM_status s e h)
  exact key es initCM (Or.inl rfl)

/-! ## Claim C10 -/

/-- Claim C10: analyzePerformance returns the hardcoded metrics
tasksCompleted 45, tasksTotal 50, successRate 0.9, responseTime 150 for
any clock readings (the agent task state is not consulted at all), and
its systemUptime always lies in the closed interval from 0 to 1. -/
theorem analyzePerformance_fixed (elapsed1 elapsed2 : Nat) :
    (analyzePerformance elapsed1 elapsed2).tasksCompleted = 45
    ∧ (analyzePerformance elapsed1 elapsed2).tasksTotal = 50
    ∧ (analyzePerformance elapsed1 elapsed2).successRate = 0.9
    ∧ (analyzePerformance elapsed1 elapsed2).responseTime = 150
    ∧ 0 ≤ (analyzePerformance elapsed1 elapsed2).systemUptime
    ∧ (analyzePerformance elapsed1 elapsed2).systemUptime ≤ 1 := by
  refine ⟨rfl, rfl, rfl, rfl, ?_, ?_⟩
  · refine le_min (div_nonneg (Nat.cast_nonneg _) ?_) zero_le_one
    positivity
  · exact min_le_right _ _

/-! ## Claim C1 -/

theorem evaluate_ledger_invariant (rules : HelmarAutonomy) (ledger : BudgetLedger)
    (action : String) (cost : ℚ) (h : ledger.spentToday ≤ ledger.dailyLimit) :
    (evaluate rules ledger action cost).2.spentToday
      ≤ (evaluate rules ledger action cost).2.dailyLimit := by
  unfold evaluate
  split_ifs with h1 h2 h3 <;> simp only [] <;> first | exact h | linarith

theorem runGate_ledger_invariant (rules : HelmarAutonomy)
    (actions : List (String × ℚ)) (ledger : BudgetLedger)
    (h : ledger.spentToday ≤ ledger.dailyLimit) :
    (runGate rules ledger actions).spentToday ≤ (runGate rules ledger actions).dailyLimit := by
  induction actions generalizing ledger with
  | nil => exact h
  | cons a t ih =>
    exact ih (evaluate rules ledger a.1 a.2).2 (evaluate_ledger_invariant rules ledger a.1 a.2 h)

/-- Claim C1: over any sequence of actions evaluated by the Autonomy Gate
(modelled from the spec, since src has no BudgetLedger), spentToday never
exceeds dailyLimit; any single action whose cost would push spending past
the remaining budget is classified approval-required and leaves the ledger
untouched (never debited); and the budgets the coordinator code commits to
(the strategy budget of makeStrategicDecisions and the total of
calculateBudgetAllocation) are at most
DECISION_THRESHOLDS.BUDGET_LIMIT = 1000. -/
theorem budget_never_exceeds_dailyLimit
    (actions : List (String × ℚ)) (ledger : BudgetLedger)
    (h : ledger.spentToday ≤ ledger.dailyLimit) :
    (runGate HELMAR_AUTONOMY_RULES ledger actions).spentToday
      ≤ (runGate HELMAR_AUTONOMY_RULES ledger actions).dailyLimit
    ∧ (∀ (led : BudgetLedger) (action : String) (cost : ℚ),
        cost + led.spentToday > led.dailyLimit →
          (evaluate HELMAR_AUTONOMY_RULES led action cost).1.classification
              = Classification.approvalRequired
          ∧ (evaluate HELMAR_AUTONOMY_RULES led action cost).2 = led)
    ∧ strategyBudget ≤ DECISION_THRESHOLDS.BUDGET_LIMIT
    ∧ calculateBudgetAllocation.total ≤ DECISION_THRESHOLDS.BUDGET_LIMIT := by
  refine ⟨runGate_ledger_invariant _ _ _ h, ?_, min_le_left _ _, min_le_left _ _⟩
  intro led action cost hover
  unfold evaluate
  split_ifs with h1
  · exact ⟨rfl, rfl⟩
  · exact ⟨rfl, rfl⟩

/-- Witness for claim C1: the scenario of spec section 8 (dailyLimit 1000,
300 already spent, a proposal costing 800 then one costing 200) keeps the
ledger within the daily limit. -/
theorem budget_never_exceeds_dailyLimit_witness :
    (runGate HELMAR_AUTONOMY_RULES ⟨1000, 300⟩
        [("content action", 800), ("content action", 200)]).spentToday
      ≤ (runGate HELMAR_AUTONOMY_RULES ⟨1000, 300⟩
        [("content action", 800), ("content action", 200)]).dailyLimit :=
  (budget_never_exceeds_dailyLimit
    [("content action", 800), ("content action", 200)] ⟨1000, 300⟩ (by norm_num)).1

/-! ## Claim C3 -/

/-- Concrete tasks used by the concrete-input theorems below. -/
def taskA : DepartmentTask :=
  { department := "content", taskId := "t1", description := "first task"
  , priority := "high", deadline := 100, assignedTo := "content-manager"
  , status := "pending" }

def taskB : DepartmentTask :=
  { department := "content", taskId := "t2", description := "second task"
  , priority := "high", deadline := 200, assignedTo := "content-manager"
  , status := "pending" }

/-- Claim C3 is false on the code at a concrete input: after the trace
receive taskA, succeed, receive taskB, fail, the stored successRate is
still 1 while tasksCompleted divided by tasksTotal is 1/2, because the
failure branch of processTask never calls updatePerformanceMetrics. -/
theorem successRate_stale_counterexample :
    (runCM initCM [.receive taskA, .finish 0 true, .receive taskB,
        .finish 1 false]).performance.successRate
      ≠ ((runCM initCM [.receive taskA, .finish 0 true, .receive taskB,
            .finish 1 false]).performance.tasksCompleted : ℚ)
        / ((runCM initCM [.receive taskA, .finish 0 true, .receive taskB,
            .finish 1 false]).performance.tasksTotal : ℚ) := by
  have h : runCM initCM [.receive taskA, .finish 0 true, .receive taskB, .finish 1 false]
      = { status := "online"
        , currentTasks := [{ taskA with status := "completed" },
            { taskB with status := "blocked" }]
        , performance := ⟨1, 2, 1, 1, 0⟩ } := by
    simp [runCM, stepCM, receiveTask, finishTask, updatePerformanceMetrics, initCM,
      taskA, taskB, List.foldl, List.get?, List.set]
  rw [h]
  norm_num

/-- Claim C3 (amended): immediately after every successfully completed
task the department successRate equals tasksCompleted divided by
tasksTotal, for any prior event sequence; after a failed task the metrics
are not updated, so successRate keeps its previous (possibly stale)
value. -/
theorem successRate_after_success (es : List CMEvent) (i : Nat)
    (h : i < (runCM initCM es).currentTasks.length) :
    (runCM initCM (es ++ [CMEvent.finish i true])).performance.successRate
      = ((runCM initCM (es ++ [CMEvent.finish i true])).performance.tasksCompleted : ℚ)
        / ((runCM initCM (es ++ [CMEvent.finish i true])).performance.tasksTotal : ℚ)
    ∧ (runCM initCM (es ++ [CMEvent.finish i false])).performance.successRate
      = (runCM initCM es).performance.successRate := by
  rw [runCM_append, runCM_append]
  set s := runCM initCM es with hs
  constructor
  · have ht : s.currentTasks[i]? = some s.currentTasks[i] :=
      List.getElem?_eq_getElem h
    simp only [runCM, List.foldl_cons, List.foldl_nil, stepCM]
    simp [finishTask, ht, updatePerformanceMetrics]
  · simp only [runCM, List.foldl_cons, List.foldl_nil, stepCM]
    unfold finishTask
    cases hg : s.currentTasks.get? i with
    | none => rfl
    | some t => rfl

/-- Witness for claim C3: one received task successfully finished gives a
successRate equal to tasksCompleted over tasksTotal, and a failed finish
leaves the successRate unchanged. -/
theorem successRate_after_success_witness :
    (runCM initCM ([CMEvent.receive taskA] ++ [CMEvent.finish 0 true])).performance.successRate
      = ((runCM initCM ([CMEvent.receive taskA]
            ++ [CMEvent.finish 0 true])).performance.tasksCompleted : ℚ)
        / ((runCM initCM ([CMEvent.receive taskA]
            ++ [CMEvent.finish 0 true])).performance.tasksTotal : ℚ)
    ∧ (runCM initCM ([CMEvent.receive taskA]
          ++ [CMEvent.finish 0 false])).performance.successRate
      = (runCM initCM [CMEvent.receive taskA]).performance.successRate :=
  successRate_after_success [CMEvent.receive taskA] 0
    (by simp [runCM, stepCM, receiveTask, initCM])

/-! ## Claim C5 -/

/-- Claim C5 is false on the code at a concrete input: the first (and
only) failure of a task leaves it with status blocked, not failed; the
DepartmentTask status union has no failed value and processTask performs
no retry. -/
theorem task_failure_status_counterexample :
    ((runCM initCM [.receive taskA, .finish 0 false]).currentTasks.map
        (fun t => t.status)) = ["blocked"]
    ∧ "blocked" ≠ "failed" := by
  constructor
  · simp [runCM, stepCM, receiveTask, finishTask, initCM, taskA, List.get?]
  · decide

/-- State with one held pending task, used by the witness below. -/
def oneTaskState : CMState :=
  { status := "online"
  , currentTasks := [taskA]
  , performance :=
      { tasksCompleted := 0, tasksTotal := 1, successRate := 0
      , systemUptime := 1, responseTime := 0 } }

theorem finishTask_tasks_mem (s : CMState) (j : Nat) (ok : Bool) (v : DepartmentTask)
    (hv : v ∈ (finishTask s j ok).currentTasks) :
    v ∈ s.currentTasks ∨ v.status = "completed" ∨ v.status = "blocked" := by
  unfold finishTask at hv
  cases hg : s.currentTasks.get? j with
  | none =>
    rw [hg] at hv
    exact Or.inl hv
  | some w =>
    rw [hg] at hv
    cases ok with
    | true =>
      rcases List.mem_or_eq_of_mem_set hv with hv2 | rfl
      · exact Or.inl hv2
      · exact Or.inr (Or.inl rfl)
    | false =>
      rcases List.mem_or_eq_of_mem_set hv with hv2 | rfl
      · exact Or.inl hv2
      · exact Or.inr (Or.inr rfl)

/-- Claim C5 (amended): a task whose processing throws is marked blocked
on its first failure; the failure changes nothing else (no retry counter,
no requeue, no issue entry: the whole state change is that one status
field), and under any event sequence no task ever carries the status
failed, provided no received task already carries it, because the status
union of the code has no failed value. -/
theorem task_failure_blocked_never_retried (s : CMState) (i : Nat) (t : DepartmentTask)
    (h : s.currentTasks.get? i = some t) :
    finishTask s i false
      = { s with currentTasks := s.currentTasks.set i { t with status := "blocked" } }
    ∧ (∀ es : List CMEvent,
        (∀ u : DepartmentTask, CMEvent.receive u ∈ es → u.status ≠ "failed") →
        ∀ v ∈ (runCM initCM es).currentTasks, v.status ≠ "failed") := by
  constructor
  · unfold finishTask
    rw [h]
    rfl
  · have key : ∀ (es : List CMEvent) (s0 : CMState),
        (∀ u : DepartmentTask, CMEvent.receive u ∈ es → u.status ≠ "failed") →
        (∀ v ∈ s0.currentTasks, v.status ≠ "failed") →
        ∀ v ∈ (runCM s0 es).currentTasks, v.status ≠ "failed" := by
      intro es
      induction es with
      | nil => intro s0 _ hs0; exact hs0
      | cons e rest ih =>
        intro s0 hes hs0
        refine ih (stepCM s0 e) (fun u hu => hes u (List.mem_cons_of_mem e hu)) ?_
        cases e with
        | receive u =>
          intro v hv
          simp only [stepCM, receiveTask, List.mem_append, List.mem_singleton] at hv
          rcases hv with hv | rfl
          · exact hs0 v hv
          · exact hes v (List.mem_cons_self _ _)
        | finish j ok =>
          intro v hv
          rcases finishTask_tasks_mem s0 j ok v hv with hv2 | hst | hst
          · exact hs0 v hv2
          · rw [Ne, hst]; decide
          · rw [Ne, hst]; decide
    intro es hes
    exact key es initCM hes (by simp [initCM])

/-- Witness for claim C5: failing the single held pending task turns
exactly its status to blocked and changes nothing else. -/
theorem task_failure_blocked_never_retried_witness :
    finishTask oneTaskState 0 false
      = { oneTaskState with
          currentTasks := oneTaskState.currentTasks.set 0 { taskA with status := "blocked" } } :=
  (task_failure_blocked_never_retried oneTaskState 0 taskA rfl).1

/-! ## Claim C6 -/

theorem manage_foldl (fault : String → Bool) (l : List String) (s : HelmarState) :
    (l.foldl (manageDept fault) s).issues = s.issues
    ∧ (l.foldl (manageDept fault) s).errorLog
      = s.errorLog ++ (l.filter fault).map (fun d => "Department " ++ d ++ " error") := by
  induction l generalizing s with
  | nil => simp
  | cons d rest ih =>
    simp only [List.foldl_cons, List.filter_cons]
    cases hf : fault d
    · simpa [manageDept, hf] using ih s
    · have h2 := ih (handleDepartmentError s d)
      have hstep : manageDept fault s d = handleDepartmentError s d := by
        simp [manageDept, hf]
      rw [hstep]
      refine ⟨h2.1, ?_⟩
      rw [h2.2]
      simp [handleDepartmentError]

/-- Claim C6 is false on the code at a concrete input: when the content
department processing throws during the management cycle, no Issue is
recorded for it (the issues list stays empty); the error is only written
to the log, and the remaining departments are still processed (exactly
the one faulting department produced a log line). -/
theorem department_error_no_issue_counterexample :
    (manageDepartments (fun d => d == "content") ⟨[], []⟩).issues = []
    ∧ (manageDepartments (fun d => d == "content") ⟨[], []⟩).errorLog
      = ["Department content error"] := by
  constructor
  · decide
  · decide

/-- Claim C6 (amended): an exception in one department during the
manageDepartments loop is caught by the per-department try/catch and only
logged by handleDepartmentError; no Issue is created or attributed; the
loop continues over the remaining departments, every later faulting
department still being handled (the final error log lists exactly the
faulting departments in order). -/
theorem manageDepartments_catches_and_continues (fault : String → Bool) (s : HelmarState) :
    (manageDepartments fault s).issues = s.issues
    ∧ (manageDepartments fault s).errorLog
      = s.errorLog ++ (departments.filter fault).map (fun d => "Department " ++ d ++ " error") :=
  manage_foldl fault departments s

/-! ## Claim C7 -/

/-- Claim C7 is false on the code at a concrete input: a second task is
accepted while the first is still held (and still pending), so the worker
holds two tasks concurrently although no concurrency limit above one is
declared anywhere; no rejection path exists and the status is not even
busy. -/
theorem worker_accepts_beyond_load_counterexample :
    (runCM initCM [.receive taskA, .receive taskB]).currentTasks = [taskA, taskB]
    ∧ (runCM initCM [.receive taskA, .receive taskB]).status = "online" := by
  constructor
  · simp [runCM, stepCM, receiveTask, initCM]
  · simp [runCM, stepCM, receiveTask, initCM]

/-- Claim C7 (amended): receiveTask accepts every task unconditionally:
it always appends the task to currentTasks and increments tasksTotal,
with no load check and no rejected-busy outcome (the only load reaction
is switching the status to busy once more than 5 tasks are held), and
over any event trace the number of held tasks equals the number of
receive events, none ever rejected or removed. -/
theorem receiveTask_always_accepts (s : CMState) (t : DepartmentTask) :
    (receiveTask s t).currentTasks = s.currentTasks ++ [t]
    ∧ (receiveTask s t).performance.tasksTotal = s.performance.tasksTotal + 1
    ∧ (receiveTask s t).status
      = (if s.currentTasks.length + 1 > 5 then "busy" else s.status)
    ∧ ∀ es : List CMEvent,
        (runCM initCM es).currentTasks.length = (es.filter isReceive).length := by
  refine ⟨rfl, rfl, by simp [receiveTask], ?_⟩
  intro es
  simpa [initCM] using runCM_length es initCM

/-! ## Claim C8 -/

/-- A low-priority, late-deadline task received first. -/
def taskLow : DepartmentTask :=
  { department := "content", taskId := "low1", description := "low priority work"
  , priority := "low", deadline := 1000, assignedTo := "content-manager"
  , status := "pending" }

/-- A high-priority, earliest-deadline task received second. -/
def taskHigh : DepartmentTask :=
  { department := "content", taskId := "high1", description := "high priority work"
  , priority := "high", deadline := 10, assignedTo := "content-manager"
  , status := "pending" }

/-- Claim C8 is false on the code at a concrete input: after enqueuing a
low-priority late-deadline task and then a high-priority earliest-deadline
task, the queue keeps the low task first, so the dequeue (processing)
order ignores both priority and deadline. -/
theorem queue_priority_counterexample :
    (runCM initCM [.receive taskLow, .receive taskHigh]).currentTasks = [taskLow, taskHigh]
    ∧ taskLow.priority = "low"
    ∧ taskHigh.priority = "high"
    ∧ taskHigh.deadline < taskLow.deadline := by
  refine ⟨?_, rfl, rfl, by decide⟩
  simp [runCM, stepCM, receiveTask, initCM]

/-- Claim C8 (amended): the department queue is plain FIFO: tasks are
held in exact insertion order, and neither priority nor deadline ever
reorders them (receiveTask only appends). -/
theorem queue_is_insertion_order (ts : List DepartmentTask) :
    (runCM initCM (ts.map CMEvent.receive)).currentTasks = ts := by
  simpa [initCM] using runCM_map_receive ts initCM

end ContentFactory
